import Mathlib

/-!
Verification of the potato-mesh Matrix bridge (`src/matrix`).

The development shallowly embeds the checkpoint/deduplication state machine
(`BridgeState`), the fetch planner, the message formatter, the puppet
identity mapper, and the inbound callback authentication of the bridge,
and proves the spec's claims about them.

Machine integers (`u64`) are modelled as `Nat`: the embedded operations
only compare and store them, never perform wrapping arithmetic, so the
embedding is faithful for all representable values.
-/

namespace PotatoMesh

/-- The fields of an upstream PotatoMesh message used by the checkpoint
logic.  The source struct `PotatoMessage` carries further display-only
fields (text, channel, node id, …) that the checkpoint never reads. -/
structure PotatoMessage where
  id : Nat
  rx_time : Nat
  deriving Repr, DecidableEq

/-- The bridge checkpoint, from `BridgeState` in `src/matrix/src/main.rs`:
highest processed id, highest observed rx_time, the ids seen at that
rx_time, and the legacy pre-`last_rx_time` timestamp. -/
structure BridgeState where
  last_message_id : Option Nat
  last_rx_time : Option Nat
  last_rx_time_ids : List Nat
  last_checked_at : Option Nat
  deriving Repr, DecidableEq

/-- Embedding of `BridgeState::default()`: every field empty. -/
def BridgeState.default : BridgeState :=
  { last_message_id := none
    last_rx_time := none
    last_rx_time_ids := []
    last_checked_at := none }

/-- Embedding of `BridgeState::should_forward` from `src/matrix/src/main.rs`.
With no `last_rx_time`, falls back to the id comparison against
`last_message_id`; otherwise compares receipt times, breaking ties by
membership in `last_rx_time_ids`. -/
def BridgeState.should_forward (s : BridgeState) (m : PotatoMessage) : Bool :=
  match s.last_rx_time with
  | none =>
      match s.last_message_id with
      | none => true
      | some last_id => decide (last_id < m.id)
  | some last_ts =>
      if last_ts < m.rx_time then true
      else if m.rx_time < last_ts then false
      else !(s.last_rx_time_ids.contains m.id)

/-- Embedding of `BridgeState::update_with` from `src/matrix/src/main.rs`.
Sets `last_message_id` unconditionally; advances `last_rx_time` and
resets the id set when the receipt time is new or strictly larger
(`self.last_rx_time.is_none() || Some(msg.rx_time) > self.last_rx_time`,
with `Some _ > Some t` exactly when the inner value is larger); appends
the id on a fresh timestamp tie. -/
def BridgeState.update_with (s : BridgeState) (m : PotatoMessage) : BridgeState :=
  let s1 : BridgeState := { s with last_message_id := some m.id }
  match s1.last_rx_time with
  | none =>
      { s1 with last_rx_time := some m.rx_time, last_rx_time_ids := [m.id] }
  | some t =>
      if t < m.rx_time then
        { s1 with last_rx_time := some m.rx_time, last_rx_time_ids := [m.id] }
      else if m.rx_time == t && !(s1.last_rx_time_ids.contains m.id) then
        { s1 with last_rx_time_ids := s1.last_rx_time_ids ++ [m.id] }
      else s1

end PotatoMesh

namespace PotatoMesh

/-- Transcription of the spec's `record(message)` contract, for comparison
with `BridgeState.update_with`: set `last_message_id` unconditionally;
when `last_receipt_time` is unset or strictly smaller, set it and reset
the id set to a singleton; on an equal receipt time with an unrecorded id,
append the id; otherwise leave the receipt-time fields unchanged. -/
def record_spec (s : BridgeState) (m : PotatoMessage) : BridgeState :=
  match s.last_rx_time with
  | none =>
      { s with last_message_id := some m.id
               last_rx_time := some m.rx_time
               last_rx_time_ids := [m.id] }
  | some t =>
      if t < m.rx_time then
        { s with last_message_id := some m.id
                 last_rx_time := some m.rx_time
                 last_rx_time_ids := [m.id] }
      else if m.rx_time = t ∧ m.id ∉ s.last_rx_time_ids then
        { s with last_message_id := some m.id
                 last_rx_time_ids := s.last_rx_time_ids ++ [m.id] }
      else
        { s with last_message_id := some m.id }

/-- Ordering on the optional receipt-time checkpoint: an unset checkpoint
is below everything, and set checkpoints compare by value. -/
def rx_le : Option Nat → Option Nat → Prop
  | none, _ => True
  | some _, none => False
  | some a, some b => a ≤ b

theorem rx_le_refl (o : Option Nat) : rx_le o o := by
  cases o <;> simp [rx_le]

theorem rx_le_trans {a b c : Option Nat} (h1 : rx_le a b) (h2 : rx_le b c) :
    rx_le a c := by
  cases a <;> cases b <;> cases c <;> simp_all [rx_le]
  omega

/-- Helper: `update_with` computes exactly the spec-side `record_spec`. -/
theorem update_with_eq_spec (s : BridgeState) (m : PotatoMessage) :
    s.update_with m = record_spec s m := by
  rcases hrx : s.last_rx_time with _ | t
  · simp [BridgeState.update_with, record_spec, hrx]
  · by_cases h1 : t < m.rx_time
    · simp [BridgeState.update_with, record_spec, hrx, h1]
    · by_cases h2 : m.rx_time = t ∧ m.id ∉ s.last_rx_time_ids
      · simp [BridgeState.update_with, record_spec, hrx, h1, h2, h2.1, h2.2,
          List.elem_iff]
      · simp only [BridgeState.update_with, record_spec, hrx]
        rw [if_neg h1, if_neg h1, if_neg h2]
        rcases not_and_or.mp h2 with h3 | h3
        · have hb : (m.rx_time == t) = false := by simp [h3]
          simp [hb]
        · have hb : s.last_rx_time_ids.contains m.id = true := by
            simpa [List.elem_iff] using not_not.mp h3
          simp [hb]
          exact fun _ => not_not.mp h3

theorem rx_le_update (s : BridgeState) (m : PotatoMessage) :
    rx_le s.last_rx_time (s.update_with m).last_rx_time := by
  rcases hrx : s.last_rx_time with _ | t
  · simp [BridgeState.update_with, hrx, rx_le]
  · by_cases h1 : t < m.rx_time
    · simp [BridgeState.update_with, hrx, h1, rx_le]
      omega
    · simp only [BridgeState.update_with, hrx]
      split_ifs <;> simp_all [rx_le]

end PotatoMesh

namespace PotatoMesh

/-- Fetch parameters for the PotatoMesh messages query, from
`FetchParams` in `src/matrix/src/potatomesh.rs`. -/
structure FetchParams where
  limit : Option Nat
  since : Option Nat
  deriving Repr, DecidableEq

/-- Embedding of `build_fetch_params` from `src/matrix/src/main.rs`: full sync before
any checkpoint, `since` paging once a receipt time is known, and a small
bounded page for a migrated id-only checkpoint. -/
def build_fetch_params (s : BridgeState) : FetchParams :=
  if s.last_message_id.isNone then
    { limit := none, since := none }
  else
    match s.last_rx_time with
    | some ts => { limit := none, since := some ts }
    | none => { limit := some 10, since := none }

/-- Embedding of Rust `str::trim_start_matches` on a single pattern character, from Rust's
`str::trim_start_matches`: drop every leading occurrence. -/
def trim_start_matches (c : Char) : List Char → List Char
  | [] => []
  | x :: xs => if x = c then trim_start_matches c xs else x :: xs

/-- Embedding of `MatrixAppserviceClient::localpart_from_node_id` from
`src/matrix/src/matrix.rs`: strip leading `!` sigils and prefix the
`potato_` namespace. -/
def localpart_from_node_id (node_id : String) : String :=
  "potato_" ++ String.mk (trim_start_matches '!' node_id.data)

theorem trim_start_matches_eq_dropWhile (c : Char) (l : List Char) :
    trim_start_matches c l = l.dropWhile (fun x => x == c) := by
  induction l with
  | nil => rfl
  | cons x xs ih =>
      by_cases h : x = c
      · simp [trim_start_matches, List.dropWhile, h, ih]
      · have hb : (x == c) = false := by simp [h]
        simp [trim_start_matches, List.dropWhile, h, hb, ih]

/-- One step of the `escape_html` fold from `src/matrix/src/main.rs`:
append the escape sequence for the five special characters, the
character itself otherwise. -/
def escape_step (acc : List Char) (ch : Char) : List Char :=
  if ch = '&' then acc ++ "&amp;".data
  else if ch = '<' then acc ++ "&lt;".data
  else if ch = '>' then acc ++ "&gt;".data
  else if ch = Char.ofNat 34 then acc ++ "&quot;".data
  else if ch = Char.ofNat 39 then acc ++ "&#39;".data
  else acc ++ [ch]

/-- Embedding of `escape_html` from `src/matrix/src/main.rs`: fold `escape_step` over
the input characters starting from an empty buffer. -/
def escape_html (input : String) : String :=
  String.mk (input.data.foldl escape_step [])

/-- Transcription of the claim's per-character escaping rule: each of the
five characters is replaced by its entity, anything else is unchanged. -/
def escape_char_spec (ch : Char) : List Char :=
  if ch = '&' then "&amp;".data
  else if ch = '<' then "&lt;".data
  else if ch = '>' then "&gt;".data
  else if ch = Char.ofNat 34 then "&quot;".data
  else if ch = Char.ofNat 39 then "&#39;".data
  else [ch]

/-- Character-wise escaping of a whole character list. -/
def escape_spec_list : List Char → List Char
  | [] => []
  | ch :: rest => escape_char_spec ch ++ escape_spec_list rest

theorem escape_step_eq (acc : List Char) (ch : Char) :
    escape_step acc ch = acc ++ escape_char_spec ch := by
  unfold escape_step escape_char_spec
  split_ifs <;> rfl

theorem foldl_escape_step (l : List Char) (acc : List Char) :
    l.foldl escape_step acc = acc ++ escape_spec_list l := by
  induction l generalizing acc with
  | nil => simp [escape_spec_list]
  | cons ch rest ih =>
      simp [List.foldl, escape_step_eq, escape_spec_list, ih, List.append_assoc]

theorem escape_html_eq (s : String) :
    escape_html s = String.mk (escape_spec_list s.data) := by
  simp [escape_html, foldl_escape_step]

/-- Embedding of `format_message_bodies` from `src/matrix/src/main.rs`: backquoted
prefix plus raw text, and a `<code>`-wrapped, HTML-escaped rich body. -/
def format_message_bodies (pfx text : String) : String × String :=
  ("`" ++ pfx ++ "` " ++ text,
   "<code>" ++ escape_html pfx ++ "</code> " ++ escape_html text)

/-- The migration step of `BridgeState::load` from `src/matrix/src/main.rs`:
after parsing, adopt the legacy `last_checked_at` timestamp when
`last_rx_time` is unset, then clear the legacy field. -/
def migrate_loaded (s : BridgeState) : BridgeState :=
  let s1 :=
    if s.last_rx_time.isNone then { s with last_rx_time := s.last_checked_at }
    else s
  { s1 with last_checked_at := none }

/-- JSON values appearing in the persisted checkpoint document. -/
inductive JsonValue where
  | num (n : Nat)
  | nul
  | arr (ns : List Nat)
  deriving Repr, DecidableEq

/-- The fields `BridgeState::save` writes: the serde derive emits the
three ordinary fields, while `last_checked_at` carries
`skip_serializing` and is never written. -/
def serialize_fields (s : BridgeState) : List (String × JsonValue) :=
  [("last_message_id",
      match s.last_message_id with
      | some n => JsonValue.num n
      | none => JsonValue.nul),
   ("last_rx_time",
      match s.last_rx_time with
      | some n => JsonValue.num n
      | none => JsonValue.nul),
   ("last_rx_time_ids", JsonValue.arr s.last_rx_time_ids)]

/-- The UTF-8 encoding of a single code point, as byte values. -/
def utf8_encode_char (n : Nat) : List Nat :=
  if n < 128 then [n]
  else if n < 2048 then [192 + n / 64, 128 + n % 64]
  else if n < 65536 then [224 + n / 4096, 128 + (n / 64) % 64, 128 + n % 64]
  else [240 + n / 262144, 128 + (n / 4096) % 64, 128 + (n / 64) % 64, 128 + n % 64]

/-- The UTF-8 byte sequence of a string, matching Rust's `str::as_bytes`. -/
def str_bytes (s : String) : List Nat :=
  s.data.foldr (fun ch acc => utf8_encode_char ch.toNat ++ acc) []

/-- Embedding of `constant_time_eq` from `src/matrix/src/matrix_server.rs`:
or-accumulate the byte xors over the longer length (missing bytes read
as 0), seeded with the xor of the two lengths truncated to `u8`
(`as u8`, i.e. mod 256); equal iff the accumulator is 0. -/
def constant_time_eq (a b : List Nat) : Bool :=
  let maxLen := max a.length b.length
  let diff := (List.range maxLen).foldl
    (fun d idx => d ||| ((a.getD idx 0) ^^^ (b.getD idx 0)))
    ((a.length ^^^ b.length) % 256)
  diff == 0

/-- Embedding of `extract_access_token` from `src/matrix/src/matrix_server.rs`: a
`Bearer `/`bearer ` authorization header wins, otherwise the
`x-access-token` header; both values are trimmed. -/
def extract_access_token (authHeader xAccessToken : Option String) : Option String :=
  match authHeader with
  | some raw =>
      if raw.startsWith "Bearer " then some (raw.drop 7).trim
      else if raw.startsWith "bearer " then some (raw.drop 7).trim
      else
        match xAccessToken with
        | some r => some r.trim
        | none => none
  | none =>
      match xAccessToken with
      | some r => some r.trim
      | none => none

/-- Observable outcome of the transactions endpoint: HTTP status, body,
and the transaction id logged on success (none when rejected). -/
structure TxnResponse where
  status : Nat
  body : String
  logged_txn : Option String
  deriving Repr, DecidableEq

/-- Embedding of `handle_transaction` from `src/matrix/src/matrix_server.rs`: a header
token, when present, is compared against the shared secret; only in its
absence is the `access_token` query parameter consulted; a match yields
HTTP 200 with an empty JSON object and logs the transaction, anything
else yields HTTP 401 with an empty JSON object and logs nothing. -/
def handle_transaction (hs_token txn_id : String)
    (authHeader xAccessToken queryToken : Option String) : TxnResponse :=
  let headerToken := extract_access_token authHeader xAccessToken
  let token_matches :=
    match headerToken with
    | some tok => constant_time_eq (str_bytes tok) (str_bytes hs_token)
    | none =>
        match queryToken with
        | some tok => constant_time_eq (str_bytes tok) (str_bytes hs_token)
        | none => false
  if token_matches then
    { status := 200, body := "\x7b\x7d", logged_txn := some txn_id }
  else
    { status := 401, body := "\x7b\x7d", logged_txn := none }

/-- A token that differs from `"x"` by 256 trailing NUL bytes. -/
def nul_padded_token : String :=
  String.mk ('x' :: List.replicate 256 (Char.ofNat 0))

/-- C1: `should_forward` decides admission exactly as the spec states:
with no timestamp checkpoint it admits iff there is no prior id or the id
is strictly greater; with a timestamp checkpoint it admits iff the receipt
time is strictly greater, or equal with an id not yet recorded at that
time (and hence rejects whenever the receipt time is strictly less). -/
theorem should_forward_decides_admission (s : BridgeState) (m : PotatoMessage) :
    s.should_forward m = true ↔
      ((s.last_rx_time = none ∧
          (s.last_message_id = none ∨
            ∃ last_id, s.last_message_id = some last_id ∧ last_id < m.id)) ∨
        ∃ last_ts, s.last_rx_time = some last_ts ∧
          (last_ts < m.rx_time ∨
            (m.rx_time = last_ts ∧ m.id ∉ s.last_rx_time_ids))) := by
  rcases hrx : s.last_rx_time with _ | last_ts
  · rcases hid : s.last_message_id with _ | last_id <;>
      simp [BridgeState.should_forward, hrx, hid]
  · by_cases h1 : last_ts < m.rx_time
    · simp [BridgeState.should_forward, hrx, h1]
    · by_cases h2 : m.rx_time < last_ts
      · simp [BridgeState.should_forward, hrx, h1, h2]
        omega
      · have heq : m.rx_time = last_ts := by omega
        simp [BridgeState.should_forward, hrx, h1, h2, heq, List.elem_iff]

/-- C3: `update_with` has exactly the postcondition the spec gives for
`record`: it agrees with the transcription `record_spec` of that contract
on every state and message. -/
theorem update_with_matches_record_spec (s : BridgeState) (m : PotatoMessage) :
    s.update_with m = record_spec s m :=
  update_with_eq_spec s m

/-- C4: once a message is recorded via `update_with`, `should_forward`
rejects the identical message, so each duplicate fetch is skipped. -/
theorem recorded_message_not_forwarded (s : BridgeState) (m : PotatoMessage) :
    (s.update_with m).should_forward m = false := by
  rw [update_with_eq_spec]
  rcases hrx : s.last_rx_time with _ | t
  · simp [record_spec, BridgeState.should_forward, hrx, List.elem_iff]
  · by_cases h1 : t < m.rx_time
    · simp [record_spec, BridgeState.should_forward, hrx, h1, List.elem_iff]
    · by_cases h2 : m.rx_time = t ∧ m.id ∉ s.last_rx_time_ids
      · simp [record_spec, BridgeState.should_forward, hrx, h1, h2, h2.1,
          List.elem_iff]
      · rcases Nat.lt_or_ge m.rx_time t with hlt | hge
        · simp [record_spec, BridgeState.should_forward, hrx, h1, h2, hlt]
        · have heq : m.rx_time = t := by omega
          have hmem : m.id ∈ s.last_rx_time_ids := by
            rcases not_and_or.mp h2 with h4 | h4
            · exact absurd heq h4
            · exact not_not.mp h4
          simp [record_spec, BridgeState.should_forward, hrx, h1, h2, heq, hmem,
            List.elem_iff]

/-- C2 counterexample: from the checkpoint `{id 20, rx 10, ids [20]}`,
recording the admissible message `{id 5, rx 10}` moves `last_message_id`
backward from `some 20` to `some 5`, refuting the claim that
`last_message_id` is non-decreasing under `record`. -/
theorem record_decreases_last_message_id :
    (BridgeState.mk (some 20) (some 10) [20] none).should_forward ⟨5, 10⟩ = true ∧
    (BridgeState.mk (some 20) (some 10) [20] none).last_message_id = some 20 ∧
    ((BridgeState.mk (some 20) (some 10) [20] none).update_with ⟨5, 10⟩).last_message_id
      = some 5 ∧ (5 : Nat) < 20 := by decide

/-- C2 amended: over any sequence of `update_with` calls `last_rx_time`
never moves backward, while `last_message_id` simply tracks the most
recently recorded message's id (and so can decrease on equal-timestamp
ties recorded out of id order). -/
theorem record_monotonicity_amended :
    (∀ (s : BridgeState) (ms : List PotatoMessage),
        rx_le s.last_rx_time ((ms.foldl BridgeState.update_with s).last_rx_time)) ∧
    (∀ (s : BridgeState) (m : PotatoMessage),
        (s.update_with m).last_message_id = some m.id) := by
  constructor
  · intro s ms
    induction ms generalizing s with
    | nil => exact rx_le_refl _
    | cons m ms ih =>
        exact rx_le_trans (rx_le_update s m) (ih (s.update_with m))
  · intro s m
    rcases hrx : s.last_rx_time with _ | t
    · simp [BridgeState.update_with, hrx]
    · simp only [BridgeState.update_with, hrx]
      split_ifs <;> simp

/-- C9: every `update_with` call leaves `last_rx_time` set, so the legacy
id-comparison branch of `should_forward` is unreachable once any message
has been recorded. -/
theorem update_with_establishes_rx_time (s : BridgeState) (m : PotatoMessage) :
    ((s.update_with m).last_rx_time).isSome = true := by
  rcases hrx : s.last_rx_time with _ | t
  · simp [BridgeState.update_with, hrx]
  · simp only [BridgeState.update_with, hrx]
    split_ifs <;> simp

/-- C6: the fetch planner returns no limit and no `since` before any
checkpoint, `since = last_rx_time` once both checkpoint fields are set,
and a bounded page of 10 with no `since` for an id-only checkpoint. -/
theorem build_fetch_params_selection (s : BridgeState) :
    build_fetch_params s =
      (match s.last_message_id, s.last_rx_time with
       | none, _ => { limit := none, since := none }
       | some _, some ts => { limit := none, since := some ts }
       | some _, none => { limit := some 10, since := none }) := by
  rcases hid : s.last_message_id with _ | i <;>
    rcases hrx : s.last_rx_time with _ | t <;>
      simp [build_fetch_params, hid, hrx]

/-- C7: the formatter yields the backquoted plain body with the text
unmodified, and a rich body wrapping the prefix in a `<code>` tag with
both parts escaped character by character per `escape_char_spec`; in
particular the spec's round-trip example holds. -/
theorem format_message_bodies_spec :
    (∀ pfx text : String,
        format_message_bodies pfx text =
          ("`" ++ pfx ++ "` " ++ text,
           "<code>" ++ String.mk (escape_spec_list pfx.data) ++ "</code> " ++
             String.mk (escape_spec_list text.data))) ∧
    format_message_bodies "[868][LF]" "Hello <&>" =
      ("`[868][LF]` Hello <&>",
       "<code>[868][LF]</code> Hello &lt;&amp;&gt;") := by
  constructor
  · intro pfx text
    simp [format_message_bodies, escape_html_eq]
  · rfl

/-- C10: `localpart_from_node_id` removes every leading `!` (not just
one) before prefixing `potato_`, so node ids differing only in leading
sigils collapse to the same puppet localpart. -/
theorem localpart_strips_all_leading_sigils :
    (∀ node_id : String,
        localpart_from_node_id node_id =
          "potato_" ++ String.mk (node_id.data.dropWhile (fun ch => ch == '!'))) ∧
    localpart_from_node_id "!!abcd" = "potato_abcd" ∧
    localpart_from_node_id "!abcd" = "potato_abcd" ∧
    localpart_from_node_id "abcd" = "potato_abcd" := by
  refine ⟨fun node_id => ?_, rfl, rfl, rfl⟩
  simp [localpart_from_node_id, trim_start_matches_eq_dropWhile]

/-- C8: loading a legacy checkpoint document (only `last_checked_at`
set, no `last_rx_time`) yields a state whose `last_rx_time` is the
legacy timestamp with the legacy field cleared, and no save ever emits
the legacy field into the persisted document. -/
theorem legacy_checkpoint_migration (s : BridgeState) (t : Nat)
    (h1 : s.last_rx_time = none) (h2 : s.last_checked_at = some t) :
    (migrate_loaded s).last_rx_time = some t ∧
    (migrate_loaded s).last_checked_at = none ∧
    ∀ s' : BridgeState, "last_checked_at" ∉ (serialize_fields s').map Prod.fst := by
  refine ⟨by simp [migrate_loaded, h1, h2], by simp [migrate_loaded], ?_⟩
  intro s'
  simp [serialize_fields]

/-- Witness for C8 at the migrated legacy document
`{last_message_id: 42, last_checked_at: 1710000000}`. -/
theorem legacy_checkpoint_migration_witness :
    (migrate_loaded ⟨some 42, none, [], some 1710000000⟩).last_rx_time
        = some 1710000000 ∧
    "last_checked_at" ∉
      (serialize_fields
        (migrate_loaded ⟨some 42, none, [], some 1710000000⟩)).map Prod.fst := by
  have h := legacy_checkpoint_migration ⟨some 42, none, [], some 1710000000⟩
    1710000000 rfl rfl
  exact ⟨h.1, h.2.2 _⟩

set_option maxRecDepth 10000 in
/-- C5 (code bug): `constant_time_eq` truncates the length xor to `u8`,
so a query-parameter token equal to the secret followed by 256 NUL bytes
is accepted with HTTP 200 although it differs from the secret; the claim
(and the comparison's own documentation) require 401 here. -/
theorem handle_transaction_accepts_unequal_token :
    nul_padded_token ≠ "x" ∧
    handle_transaction "x" "txn1" none none (some nul_padded_token) =
      { status := 200, body := "\x7b\x7d", logged_txn := some "txn1" } := by
  constructor
  · decide
  · rfl

end PotatoMesh
